import Mathlib

/-!
# Verification of the `openentropy` entropy engine against its specification

Shallow embedding of the core of the `esoteric_entropy` Python package:

* `pool.py` — `EntropyPool.get_random_bytes`, `EntropyPool.add_source`
  (the keyed-hash conditioner loop, buffer handling, counters);
* `conditioning.py` — `sha256_condition`;
* `sources/base.py` — `EntropySource._quick_shannon`, `EntropySource._quick_quality`;
* `stats.py` — `shannon_entropy`, `min_entropy`;
* `test_suite.py` — `ALL_TESTS`, `run_all_tests`, `calculate_quality_score`.

Machine integers are `Nat` with explicit `% 2^32` where overflow matters;
Python floats are idealised as `ℝ`; byte strings are `List Nat`
(`List (Fin 256)` where the proofs need values bounded by 256).
External effects (`time.time()`, `os.urandom`, `zlib.compress`, the entropy
sources' collected bytes) enter the model as explicit parameters, since the
Python code reads them as opaque inputs.
-/

set_option maxRecDepth 4000

namespace OpenEntropy

/-! ## Byte-string helpers (struct.pack encodings) -/

/-- `struct.pack("<Q", n)`: the 8 little-endian bytes of `n` (mod 2^64). -/
def le64 (n : Nat) : List Nat :=
  [n % 256, n / 256 % 256, n / 256 ^ 2 % 256, n / 256 ^ 3 % 256,
   n / 256 ^ 4 % 256, n / 256 ^ 5 % 256, n / 256 ^ 6 % 256, n / 256 ^ 7 % 256]

/-- `struct.pack(">I", n)`: the 4 big-endian bytes of `n` (mod 2^32). -/
def be32 (n : Nat) : List Nat :=
  [n / 256 ^ 3 % 256, n / 256 ^ 2 % 256, n / 256 % 256, n % 256]

/-- The 8 big-endian bytes of `n` (mod 2^64), used for the SHA-256 length field. -/
def be64 (n : Nat) : List Nat :=
  [n / 256 ^ 7 % 256, n / 256 ^ 6 % 256, n / 256 ^ 5 % 256, n / 256 ^ 4 % 256,
   n / 256 ^ 3 % 256, n / 256 ^ 2 % 256, n / 256 % 256, n % 256]

/-- Python slicing `l[:k]` for an `int` index `k` (negative `k` counts from the end). -/
def pyTake (k : Int) (l : List α) : List α :=
  if 0 ≤ k then l.take k.toNat else l.take (l.length - (-k).toNat)

/-! ## SHA-256 (FIPS 180-4), executable over `Nat`

`hashlib.sha256`, embedded so the conditioner blocks of the pool can be
computed and compared on concrete inputs.  Words are `Nat` reduced mod 2^32. -/

/-- Truncate to a 32-bit word. -/
def w32 (x : Nat) : Nat := x % 4294967296

/-- Rotate a 32-bit word right by `n` bits (`0 < n < 32`, `x < 2^32`). -/
def rotr (n x : Nat) : Nat := w32 (x / 2 ^ n + x * 2 ^ (32 - n))

/-- The 64 SHA-256 round constants `K₀…K₆₃` (FIPS 180-4 §4.2.2, here in
decimal: `K₀ = 1116352408 = 0x428a2f98`, …). -/
def K : List Nat :=
  [1116352408, 1899447441, 3049323471, 3921009573, 961987163, 1508970993,
   2453635748, 2870763221, 3624381080, 310598401, 607225278, 1426881987,
   1925078388, 2162078206, 2614888103, 3248222580, 3835390401, 4022224774,
   264347078, 604807628, 770255983, 1249150122, 1555081692, 1996064986,
   2554220882, 2821834349, 2952996808, 3210313671, 3336571891, 3584528711,
   113926993, 338241895, 666307205, 773529912, 1294757372, 1396182291,
   1695183700, 1986661051, 2177026350, 2456956037, 2730485921, 2820302411,
   3259730800, 3345764771, 3516065817, 3600352804, 4094571909, 275423344,
   430227734, 506948616, 659060556, 883997877, 958139571, 1322822218,
   1537002063, 1747873779, 1955562222, 2024104815, 2227730452, 2361852424,
   2428436474, 2756734187, 3204031479, 3329325298]

/-- The SHA-256 initial hash value `H⁽⁰⁾` (FIPS 180-4 §5.3.3, in decimal:
`H₀ = 1779033703 = 0x6a09e667`, …). -/
def H0 : List Nat :=
  [1779033703, 3144134277, 1013904242, 2773480762, 1359893119, 2600822924,
   528734635, 1541459225]

/-- Pad a byte message per FIPS 180-4: append `0x80`, zeros to 56 mod 64,
then the 64-bit big-endian bit length. -/
def shaPad (msg : List Nat) : List Nat :=
  msg ++ [0x80] ++ List.replicate ((119 - msg.length % 64) % 64) 0 ++ be64 (8 * msg.length)

/-- Group bytes into big-endian 32-bit words. -/
def toWords : List Nat → List Nat
  | a :: b :: c :: d :: rest => (((a * 256 + b) * 256 + c) * 256 + d) :: toWords rest
  | _ => []

/-- Small σ₀ of the message schedule. -/
def ssig0 (x : Nat) : Nat := rotr 7 x ^^^ rotr 18 x ^^^ x / 2 ^ 3

/-- Small σ₁ of the message schedule. -/
def ssig1 (x : Nat) : Nat := rotr 17 x ^^^ rotr 19 x ^^^ x / 2 ^ 10

/-- Extend 16 message words to the 64-word schedule. -/
def sched (w : List Nat) : List Nat :=
  (List.range 48).foldl
    (fun acc _ =>
      acc ++ [w32 (ssig1 (acc.getD (acc.length - 2) 0) + acc.getD (acc.length - 7) 0 +
                   ssig0 (acc.getD (acc.length - 15) 0) + acc.getD (acc.length - 16) 0)])
    w

/-- One SHA-256 round: state `(a,b,c,d,e,f,g,h)` updated with `(Kₜ, Wₜ)`. -/
def shaRound (st : Nat × Nat × Nat × Nat × Nat × Nat × Nat × Nat) (kw : Nat × Nat) :
    Nat × Nat × Nat × Nat × Nat × Nat × Nat × Nat :=
  match st with
  | (a, b, c, d, e, f, g, h) =>
    let s1 := rotr 6 e ^^^ rotr 11 e ^^^ rotr 25 e
    let ch := (e &&& f) ^^^ ((e ^^^ 4294967295) &&& g)
    let t1 := w32 (h + s1 + ch + kw.1 + kw.2)
    let s0 := rotr 2 a ^^^ rotr 13 a ^^^ rotr 22 a
    let mj := (a &&& b) ^^^ (a &&& c) ^^^ (b &&& c)
    let t2 := w32 (s0 + mj)
    (w32 (t1 + t2), a, b, c, w32 (d + t1), e, f, g)

/-- Compress one 64-byte block into the running 8-word hash state. -/
def compress (h : List Nat) (block : List Nat) : List Nat :=
  let w := sched (toWords block)
  let i := fun k => h.getD k 0
  let r := (K.zip w).foldl shaRound (i 0, i 1, i 2, i 3, i 4, i 5, i 6, i 7)
  [w32 (i 0 + r.1), w32 (i 1 + r.2.1), w32 (i 2 + r.2.2.1), w32 (i 3 + r.2.2.2.1),
   w32 (i 4 + r.2.2.2.2.1), w32 (i 5 + r.2.2.2.2.2.1),
   w32 (i 6 + r.2.2.2.2.2.2.1), w32 (i 7 + r.2.2.2.2.2.2.2)]

/-- Split a byte list into 64-byte chunks (structural recursion on a fuel
bound so the kernel can evaluate it; `fuel = l.length` always suffices
because `drop 64` shortens any non-empty list). -/
def chunk64Aux : Nat → List Nat → List (List Nat)
  | _, [] => []
  | 0, _ :: _ => []
  | fuel + 1, a :: l => (a :: l).take 64 :: chunk64Aux fuel ((a :: l).drop 64)

/-- Split a byte list into 64-byte chunks. -/
def chunk64 (l : List Nat) : List (List Nat) := chunk64Aux l.length l

/-- Emit a word list as big-endian bytes. -/
def wordsToBytes : List Nat → List Nat
  | [] => []
  | w :: ws => be32 w ++ wordsToBytes ws

/-- `hashlib.sha256(msg).digest()`: the 32-byte SHA-256 digest of `msg`. -/
def sha256 (msg : List Nat) : List Nat :=
  wordsToBytes ((chunk64 (shaPad msg)).foldl compress H0)

/-- FIPS 180-4 test vector: SHA-256 of `"abc"` (digest bytes in decimal;
in hex: `ba7816bf 8f01cfea 414140de 5dae2223 b00361a3 96177a9c b410ff61
f20015ad`). -/
theorem sha256_vector_abc :
    sha256 [97, 98, 99] =
      [186, 120, 22, 191, 143, 1, 207, 234, 65, 65, 64,
       222, 93, 174, 34, 35, 176, 3, 97, 163, 150, 23,
       122, 156, 180, 16, 255, 97, 242, 0, 21, 173] := by decide

theorem wordsToBytes_length (ws : List Nat) : (wordsToBytes ws).length = 4 * ws.length := by
  induction ws with
  | nil => rfl
  | cons w ws ih => simp [wordsToBytes, be32, ih]; ring

theorem compress_length (h b : List Nat) : (compress h b).length = 8 := rfl

theorem foldl_compress_length (bs : List (List Nat)) (h : List Nat) (hh : h.length = 8) :
    (bs.foldl compress h).length = 8 := by
  induction bs generalizing h with
  | nil => exact hh
  | cons b bs ih => exact ih _ (compress_length h b)

/-- A SHA-256 digest is always exactly 32 bytes. -/
theorem sha256_length (msg : List Nat) : (sha256 msg).length = 32 := by
  rw [sha256, wordsToBytes_length, foldl_compress_length (chunk64 (shaPad msg)) H0 rfl]

/-! ## The entropy pool (`pool.py`, class `EntropyPool`)

The mutable attributes of an `EntropyPool` that `get_random_bytes` touches:
`_buffer`, `_counter`, `_total_output` and the conditioner `_state`
(`_sources` is modelled separately for `add_source`, see `SourceState` below;
`get_random_bytes` never modifies it directly).  `_total_output` is a Python
`int`, so it is `Int` here (it can go negative: `+= n_bytes` is unguarded).

The two per-block external inputs of the conditioner —
`struct.pack("<d", time.time())` and `os.urandom(8)` — are modelled as
streams `tB rB : Nat → List Nat`, indexed by the (strictly increasing, hence
unique) value of `_counter` for the block.  The bytes appended by the
`collect_all()` refill are the parameter `collected` (the concatenation of the
sources' collected bytes; `collect_all` itself only extends the buffer). -/

structure PoolState where
  buffer : List Nat
  counter : Nat
  total_output : Int
  state : List Nat

/-- The body of the output loop of `EntropyPool.get_random_bytes`
(`pool.py` lines 158–171): increment the counter, read up to 256 buffer
bytes as the sample, drop them only if more than 256 bytes are buffered,
hash `state ‖ sample ‖ LE64(counter) ‖ time-bytes ‖ urandom-bytes`, and
replace the state with the digest.  Returns (output block, new pool state). -/
def produceBlock (st : PoolState) (tB rB : Nat → List Nat) : List Nat × PoolState :=
  let counter := st.counter + 1
  let sample := st.buffer.take 256
  let buffer := if 256 < st.buffer.length then st.buffer.drop 256 else st.buffer
  let blk := sha256 (st.state ++ sample ++ le64 counter ++ tB counter ++ rB counter)
  (blk, { st with buffer := buffer, counter := counter, state := blk })

theorem produceBlock_fst_length (st : PoolState) (tB rB : Nat → List Nat) :
    (produceBlock st tB rB).1.length = 32 := sha256_length _

/-- The `while len(output) < n_bytes` loop of `get_random_bytes`. -/
def grbLoop (n : Int) (st : PoolState) (output : List Nat) (tB rB : Nat → List Nat) :
    List Nat × PoolState :=
  if (output.length : Int) < n then
    grbLoop n (produceBlock st tB rB).2 (output ++ (produceBlock st tB rB).1) tB rB
  else (output, st)
termination_by (n - output.length).toNat
decreasing_by
  simp only [List.length_append, produceBlock_fst_length]
  omega

/-- `EntropyPool.get_random_bytes(n_bytes)` (`pool.py` lines 148–174):
refill via `collect_all()` when fewer than `2·n` bytes are buffered, run the
block loop until at least `n` bytes of output exist, add `n` to
`_total_output`, and return `output[:n]`. -/
def getRandomBytes (n : Int) (st : PoolState) (collected : List Nat)
    (tB rB : Nat → List Nat) : List Nat × PoolState :=
  let poolSize := st.buffer.length
  let st1 := if (poolSize : Int) < n * 2 then { st with buffer := st.buffer ++ collected } else st
  let r := grbLoop n st1 [] tB rB
  (pyTake n r.1, { r.2 with total_output := r.2.total_output + n })

/-- `SourceState` dataclass of `pool.py` (the `source` attribute is
represented by its `name`, which is all `add_source` duplication could key
on; the float fields are idealised as `Rat`).  Defaults as in the source. -/
structure SourceState where
  name : String
  weight : Rat := 1
  total_bytes : Nat := 0
  failures : Nat := 0
  last_entropy : Rat := 0
  last_collect_time : Rat := 0
  healthy : Bool := true
deriving DecidableEq

/-- `EntropyPool.add_source` (`pool.py` lines 58–59):
`self._sources.append(SourceState(source=source, weight=weight))` —
an unconditional append. -/
def addSource (sources : List SourceState) (nm : String) (weight : Rat) :
    List SourceState :=
  sources ++ [{ name := nm, weight := weight }]

/-! ### Helper lemmas about the output loop -/

/-- The loop only stops once at least `n` bytes of output exist. -/
theorem grbLoop_length_ge (n : Int) (st : PoolState) (output : List Nat)
    (tB rB : Nat → List Nat) : n ≤ ((grbLoop n st output tB rB).1.length : Int) := by
  rw [grbLoop]
  split
  · exact grbLoop_length_ge n _ _ tB rB
  · simpa using le_of_not_lt (by assumption)
termination_by (n - output.length).toNat
decreasing_by
  simp only [List.length_append, produceBlock_fst_length]
  omega

/-- For a non-positive request the loop body never runs. -/
theorem grbLoop_nonpos (n : Int) (st : PoolState) (tB rB : Nat → List Nat)
    (h : n ≤ 0) : grbLoop n st [] tB rB = ([], st) := by
  rw [grbLoop]
  rw [if_neg (by simp only [List.length_nil, Nat.cast_zero]; omega)]

/-- A request of `1 ≤ n ≤ 32` bytes runs the loop body exactly once. -/
theorem grbLoop_single (n : Int) (st : PoolState) (tB rB : Nat → List Nat)
    (h1 : 0 < n) (h2 : n ≤ 32) :
    grbLoop n st [] tB rB = ((produceBlock st tB rB).1, (produceBlock st tB rB).2) := by
  rw [grbLoop]
  rw [if_pos (by simpa using h1)]
  rw [grbLoop]
  rw [if_neg (by simp [produceBlock_fst_length]; omega)]
  simp

/-- `get_random_bytes` with a negative request: no refill, no block, the
output is empty, and the only state change is `_total_output += n`. -/
theorem getRandomBytes_neg (n : Int) (st : PoolState) (collected : List Nat)
    (tB rB : Nat → List Nat) (h : n < 0) :
    getRandomBytes n st collected tB rB =
      ([], { st with total_output := st.total_output + n }) := by
  simp only [getRandomBytes]
  rw [if_neg (by omega)]
  rw [grbLoop_nonpos n st tB rB (le_of_lt h)]
  simp [pyTake]

/-! ### Concrete inputs used by witnesses and counterexamples -/

/-- A pool state with all-zero conditioner state and empty buffer. -/
def st0 : PoolState := { buffer := [], counter := 0, total_output := 0, state := List.replicate 32 0 }

/-- A pool state whose buffer holds the two bytes `[7, 8]`. -/
def stBuf2 : PoolState := { buffer := [7, 8], counter := 0, total_output := 0, state := List.replicate 32 0 }

/-- The time-bytes stream at a wall clock of exactly 1.0 s (= 10⁹ ns):
`struct.pack("<d", 1.0)` is the little-endian IEEE-754 encoding of 1.0,
i.e. `0x3FF0000000000000` → bytes `00 00 00 00 00 00 F0 3F`. -/
def tB0 : Nat → List Nat := fun _ => [0, 0, 0, 0, 0, 0, 0xF0, 0x3F]

/-- An all-zero 8-byte system-CSPRNG stream. -/
def rB0 : Nat → List Nat := fun _ => List.replicate 8 0

/-! ## Claim C1 — `get_random_bytes(n)` returns exactly `n` bytes for `n ≥ 0` -/

/-- C1: for every pool state, collected refill, external time/CSPRNG streams
and every requested count `n ≥ 0`, `get_random_bytes` returns a byte sequence
of length exactly `n`; in particular a request of 0 returns the empty
sequence. -/
theorem C1_get_random_bytes_length (n : Int) (st : PoolState) (collected : List Nat)
    (tB rB : Nat → List Nat) (h : 0 ≤ n) :
    ((getRandomBytes n st collected tB rB).1.length : Int) = n := by
  simp only [getRandomBytes]
  have hge := grbLoop_length_ge n
    (if (st.buffer.length : Int) < n * 2 then { st with buffer := st.buffer ++ collected } else st)
    [] tB rB
  rw [pyTake, if_pos h, List.length_take]
  omega

/-- C1 witness: a request of 3 bytes returns exactly 3 bytes (and `0 ≤ 3`). -/
theorem C1_witness :
    (0 : Int) ≤ 3 ∧ ((getRandomBytes 3 st0 [] tB0 rB0).1.length : Int) = 3 :=
  ⟨by norm_num, C1_get_random_bytes_length 3 st0 [] tB0 rB0 (by norm_num)⟩

/-! ## Claim C2 — the conditioner block formula and state evolution

The claim states the time field of the hash input is `LE64(wall_time_ns)`.
The code (`pool.py` line 168) feeds `struct.pack("<d", time.time())` — the
8-byte little-endian IEEE-754 **double** of the wall time in **seconds** —
so at a wall clock of 1 s (= 10⁹ ns) the hashed message, and hence the
block, differs from the claimed `SHA-256(state ‖ sample ‖ LE64(counter) ‖
LE64(10⁹) ‖ urandom8)`.  The rest of the claim (block structure, the state
is replaced by the block and never reverts) holds. -/

/-- C2 counterexample: with state = 32 zero bytes, empty buffer, counter
going to 1, wall clock exactly 1.0 s (so `wall_time_ns = 10⁹` and the code
hashes `pack("<d", 1.0) = 00 00 00 00 00 00 F0 3F`), and 8 zero CSPRNG
bytes, the block the code produces is **not**
`SHA-256(state ‖ sample ‖ LE64(counter) ‖ LE64(wall_time_ns) ‖ urandom8)`. -/
theorem C2_counterexample :
    ¬ ((produceBlock st0 tB0 rB0).1 =
        sha256 (List.replicate 32 0 ++ List.take 256 ([] : List Nat) ++ le64 1 ++
          le64 1000000000 ++ List.replicate 8 0)) := by decide

/-- C2 (amended): each output block equals SHA-256 of
`state ‖ sample ‖ LE64(counter) ‖ time-bytes ‖ CSPRNG-bytes` where the time
field is `struct.pack("<d", time.time())` (little-endian double of wall-time
seconds, modelled by the stream `tB`) rather than `LE64(wall_time_ns)`; and
immediately after producing the block the conditioner state equals the
block (the state is replaced, never reverted). -/
theorem C2_conditioner_block (st : PoolState) (tB rB : Nat → List Nat) :
    (produceBlock st tB rB).1 =
      sha256 (st.state ++ st.buffer.take 256 ++ le64 (st.counter + 1) ++
        tB (st.counter + 1) ++ rB (st.counter + 1)) ∧
    (produceBlock st tB rB).2.state = (produceBlock st tB rB).1 :=
  ⟨rfl, rfl⟩

/-! ## Claim C4 — buffer consumption per block

The claim says each block removes `min(256, len)` bytes from the front of
the buffer, shrinking it whenever it was non-empty.  The code (`pool.py`
lines 160–162) only reassigns the buffer when `len(self._buffer) > 256`;
with `0 < len ≤ 256` the buffer is left unchanged (its bytes are reused by
later blocks). -/

/-- C4 counterexample: a pool holding 2 buffered bytes, asked for 1 output
byte (no refill since `2 ≥ 2·1`), produces one block and leaves the buffer
equal to `[7, 8]` — not the claimed `[7, 8]` minus its first
`min(256, 2) = 2` bytes (which would be `[]`). -/
theorem C4_counterexample :
    ¬ ((getRandomBytes 1 stBuf2 [] tB0 rB0).2.buffer =
        List.drop (min 256 stBuf2.buffer.length) stBuf2.buffer) := by
  have hbuf : (getRandomBytes 1 stBuf2 [] tB0 rB0).2.buffer = [7, 8] := by
    simp only [getRandomBytes]
    rw [if_neg (by simp [stBuf2])]
    rw [grbLoop_single 1 stBuf2 tB0 rB0 (by norm_num) (by norm_num)]
    simp [produceBlock, stBuf2]
  rw [hbuf]
  simp [stBuf2]

/-- C4 (amended): each 32-byte block reads up to 256 bytes from the front of
the buffer as its sample, but the buffer shrinks — by exactly its first 256
bytes — only when it held more than 256 bytes; with `len ≤ 256` (including
non-empty buffers) it is left unchanged. -/
theorem C4_buffer_update (st : PoolState) (tB rB : Nat → List Nat) :
    (produceBlock st tB rB).2.buffer =
      (if 256 < st.buffer.length then st.buffer.drop 256 else st.buffer) ∧
    (st.buffer.length ≤ 256 → (produceBlock st tB rB).2.buffer = st.buffer) :=
  ⟨rfl, fun hle => by simp only [produceBlock]; rw [if_neg (by omega)]⟩

/-- C4 witness: with a 300-byte buffer the block drops exactly the first 256
bytes, and with a 2-byte buffer (`stBuf2`) the buffer stays whole. -/
theorem C4_witness :
    (produceBlock { st0 with buffer := List.replicate 300 1 } tB0 rB0).2.buffer =
      (if 256 < (List.replicate 300 1 : List Nat).length then (List.replicate 300 1 : List Nat).drop 256
       else List.replicate 300 1) ∧
    stBuf2.buffer.length ≤ 256 ∧ (produceBlock stBuf2 tB0 rB0).2.buffer = stBuf2.buffer :=
  ⟨(C4_buffer_update { st0 with buffer := List.replicate 300 1 } tB0 rB0).1,
   by decide,
   (C4_buffer_update stBuf2 tB0 rB0).2 (by decide)⟩

/-! ## Claim C5 — `add_source` and duplicate names

The claim says a source whose name duplicates a registered one is rejected
with a "duplicate-source" error, leaving the list unchanged.  The code
(`pool.py` lines 58–59) performs an unconditional
`self._sources.append(...)`: there is no name check and no error path. -/

/-- C5 counterexample: adding a source named `"clock_jitter"` to a pool that
already has a source of that name succeeds and appends — the source list is
changed (length 2), not left unchanged. -/
theorem C5_counterexample :
    addSource [{ name := "clock_jitter" }] "clock_jitter" 1 ≠ [{ name := "clock_jitter" }] ∧
    (addSource [{ name := "clock_jitter" }] "clock_jitter" 1).length = 2 := by
  constructor
  · simp [addSource]
  · simp [addSource]

/-- C5 (amended): `add_source` is **not** idempotent over the source's name:
even when a registered source already bears the same name, the call is
accepted and appends a fresh `SourceState` with the given name and weight
(and the dataclass defaults), growing the list by one. -/
theorem C5_add_source_appends (sources : List SourceState) (nm : String) (w : Rat)
    (_h : ∃ s ∈ sources, s.name = nm) :
    addSource sources nm w = sources ++ [{ name := nm, weight := w }] ∧
    (addSource sources nm w).length = sources.length + 1 :=
  ⟨rfl, by simp [addSource]⟩

/-- C5 witness: the duplicate-name hypothesis holds for a concrete pool with
one `"clock_jitter"` source, and the rejected-by-the-claim call appends. -/
theorem C5_witness :
    (∃ s ∈ ([{ name := "clock_jitter" }] : List SourceState), s.name = "clock_jitter") ∧
    addSource [{ name := "clock_jitter" }] "clock_jitter" 1 =
      [{ name := "clock_jitter" }] ++ [{ name := "clock_jitter", weight := 1 }] ∧
    (addSource [{ name := "clock_jitter" }] "clock_jitter" 1).length = 1 + 1 :=
  ⟨⟨_, List.mem_singleton_self _, rfl⟩,
   (C5_add_source_appends [{ name := "clock_jitter" }] "clock_jitter" 1
      ⟨_, List.mem_singleton_self _, rfl⟩).1,
   (C5_add_source_appends [{ name := "clock_jitter" }] "clock_jitter" 1
      ⟨_, List.mem_singleton_self _, rfl⟩).2⟩

/-! ## Claim C6 — negative requested count

The claim says `get_random_bytes(n)` with `n < 0` raises an
"invalid-length" error synchronously and changes no state.  The code has no
length check at all: the `while` loop guard `len(output) < n_bytes` is
immediately false, the refill guard `pool_size < n_bytes * 2` is false, so
the call **returns normally** with `b""` — and still executes
`self._total_output += n_bytes`, decreasing the output total. -/

/-- C6 counterexample: `get_random_bytes(-1)` does not leave the pool state
unchanged (and raises nothing): `_total_output` moves from 0 to −1. -/
theorem C6_counterexample :
    ¬ ((getRandomBytes (-1) st0 [] tB0 rB0).2.total_output = st0.total_output) := by
  rw [getRandomBytes_neg (-1) st0 [] tB0 rB0 (by norm_num)]
  simp [st0]

/-- C6 (amended): for `n < 0`, `get_random_bytes` raises no error and
returns the empty byte string; the buffer, counter and conditioner state are
unchanged, but `_total_output` is increased by the negative `n`. -/
theorem C6_negative_request (n : Int) (st : PoolState) (collected : List Nat)
    (tB rB : Nat → List Nat) (h : n < 0) :
    getRandomBytes n st collected tB rB =
      ([], { st with total_output := st.total_output + n }) :=
  getRandomBytes_neg n st collected tB rB h

/-- C6 witness: the amended behaviour at the concrete request `n = −1`. -/
theorem C6_witness :
    (-1 : Int) < 0 ∧
    getRandomBytes (-1) st0 [] tB0 rB0 =
      ([], { st0 with total_output := st0.total_output + (-1) }) :=
  ⟨by norm_num, C6_negative_request (-1) st0 [] tB0 rB0 (by norm_num)⟩

/-! ## `sha256_condition` (`conditioning.py` lines 43–55) -/

/-- The `while len(result) < output_bytes` loop of `sha256_condition`: each
iteration hashes `struct.pack(">I", counter) + raw` and appends the digest. -/
def s256cLoop (raw : List Nat) (outputBytes : Nat) (result : List Nat) (counter : Nat) :
    List Nat :=
  if result.length < outputBytes then
    s256cLoop raw outputBytes (result ++ sha256 (be32 counter ++ raw)) (counter + 1)
  else result
termination_by outputBytes - result.length
decreasing_by
  simp only [List.length_append, sha256_length]
  omega

/-- The loop stops only with at least `outputBytes` bytes accumulated. -/
theorem s256cLoop_length_ge (raw : List Nat) (outputBytes : Nat) (result : List Nat)
    (counter : Nat) : outputBytes ≤ (s256cLoop raw outputBytes result counter).length := by
  rw [s256cLoop]
  split
  · exact s256cLoop_length_ge raw outputBytes _ _
  · omega
termination_by outputBytes - result.length
decreasing_by
  simp only [List.length_append, sha256_length]
  omega

/-- `sha256_condition(data, output_bytes)` (`conditioning.py`): iterate the
counter-prefixed SHA-256 until enough bytes exist, then truncate.  (`data`
is the raw byte string after the `np.uint8`-to-bytes normalisation.) -/
def sha256_condition (data : List Nat) (output_bytes : Nat) : List Nat :=
  (s256cLoop data output_bytes [] 0).take output_bytes

/-! ## Claim C10 — `sha256_condition` is pure and length-exact -/

/-- C10: `sha256_condition` is a pure deterministic function of its two
arguments — equal arguments give equal results — and the result has length
exactly `output_bytes`.  Unlike the pool's extractor it reads no pool
counter, wall time, or system-CSPRNG input (its type has no such parameter;
the `counter` in its body is the block index 0,1,2,…, a function of the
arguments alone). -/
theorem C10_sha256_condition_pure (data : List Nat) (n : Nat) :
    (sha256_condition data n).length = n ∧
    (∀ data2 n2, data2 = data → n2 = n → sha256_condition data2 n2 = sha256_condition data n) := by
  constructor
  · have := s256cLoop_length_ge data n [] 0
    simp only [sha256_condition, List.length_take]
    omega
  · intro data2 n2 hd hn
    rw [hd, hn]

/-- C10 witness: at the concrete input `data = [1, 2, 3]`, `n = 5`. -/
theorem C10_witness :
    (sha256_condition [1, 2, 3] 5).length = 5 ∧
    sha256_condition [1, 2, 3] 5 = sha256_condition [1, 2, 3] 5 :=
  ⟨(C10_sha256_condition_pure [1, 2, 3] 5).1,
   (C10_sha256_condition_pure [1, 2, 3] 5).2 [1, 2, 3] 5 rfl rfl⟩

/-! ## The test battery (`test_suite.py`)

Each of the registered test functions is a large float/scipy statistical
routine; the battery harness treats them as black boxes (`test_fn(data)`
inside `try/except`).  They are modelled as an interpretation
`impl : String → List Nat → Except String TestResult` mapping a registered
function name and the input data to either a result or a raised exception's
message — exactly the two outcomes the harness distinguishes.  The claim under
check (C3) is about the harness: how many tests run, in what order, and how
the overall score aggregates the grades. -/

/-- `TestResult` dataclass of `test_suite.py` (floats idealised as `ℝ`;
`grade` is a `str` in the source, kept as `String` — `calculate_quality_score`
looks it up with default 0). -/
structure TestResult where
  name : String
  passed : Bool
  p_value : Option ℝ
  statistic : ℝ
  details : String
  grade : String

/-- Python `s.replace("_", " ").title()` as used for the name of an
errored test (`test_fn.__name__.replace('_', ' ').title()`). -/
def titleChars : Bool → List Char → List Char
  | _, [] => []
  | prevAlpha, c :: cs =>
    (if c.isAlpha then (if prevAlpha then c.toLower else c.toUpper) else c) ::
      titleChars c.isAlpha cs

/-- Python `s.replace("_", " ").title()`. -/
def pyTitle (s : String) : String :=
  ⟨titleChars false (s.data.map fun c => if c = '_' then ' ' else c)⟩

/-- `ALL_TESTS` (`test_suite.py` lines 810–833): the registered test
functions, by `__name__`, in registration order — 31 entries. -/
def ALL_TESTS : List String :=
  ["monobit_frequency", "block_frequency", "byte_frequency",
   "runs_test", "longest_run_of_ones",
   "serial_test", "approximate_entropy",
   "dft_spectral", "spectral_flatness",
   "shannon_entropy_test", "min_entropy_test", "permutation_entropy_test",
   "compression_ratio_test", "kolmogorov_complexity_test",
   "autocorrelation_test", "serial_correlation_test", "lag_n_correlation",
   "cross_correlation_test",
   "ks_test", "anderson_darling_test",
   "overlapping_template", "non_overlapping_template", "maurers_universal",
   "binary_matrix_rank", "linear_complexity", "cusum_test",
   "random_excursions_test", "birthday_spacing_test",
   "bit_avalanche_test", "monte_carlo_pi", "mean_variance_test"]

/-- The `try/except` body of the `run_all_tests` loop: a raised exception
becomes a failed grade-F result named after the test function. -/
def runOne (impl : String → List Nat → Except String TestResult)
    (data : List Nat) (fn : String) : TestResult :=
  match impl fn data with
  | .ok r => r
  | .error e =>
      { name := pyTitle fn, passed := false, p_value := none, statistic := 0,
        details := "Error: " ++ e, grade := "F" }

/-- `run_all_tests(data)` (`test_suite.py` lines 836–850): run every
registered test on `data`, in registration order, collecting the results. -/
def run_all_tests (impl : String → List Nat → Except String TestResult)
    (data : List Nat) : List TestResult :=
  ALL_TESTS.map (runOne impl data)

/-- The `grade_scores` dict `{A:100, B:75, C:50, D:25, F:0}` with its
`.get(grade, 0)` default. -/
def grade_scores (g : String) : Nat :=
  if g = "A" then 100 else if g = "B" then 75 else if g = "C" then 50
  else if g = "D" then 25 else 0

/-- `calculate_quality_score(results)` (`test_suite.py` lines 853–858):
`0.0` for an empty list (`if not results`), else the sum of the per-grade
points divided by the number of results. -/
noncomputable def calculate_quality_score (results : List TestResult) : ℝ :=
  if results.isEmpty then 0
  else ((results.map fun r => (grade_scores r.grade : ℝ)).sum) / results.length

/-- Unfolding of `calculate_quality_score` on a non-empty list. -/
theorem calculate_quality_score_eq (results : List TestResult) (h : results ≠ []) :
    calculate_quality_score results =
      ((results.map fun r => (grade_scores r.grade : ℝ)).sum) / results.length := by
  rw [calculate_quality_score, if_neg (by simpa using h)]

/-! ## Claim C3 — the battery runs 30 tests (it runs 31)

`ALL_TESTS` registers **31** test functions, not 30 (the spec's own §4.7
table also lists 31 names).  Order preservation and the score formula hold
as claimed. -/

/-- A trivial interpretation of the test functions, used only to exercise
the harness at a concrete input. -/
def implF : String → List Nat → Except String TestResult :=
  fun nm _ => .ok { name := nm, passed := false, p_value := none, statistic := 0,
                    details := "", grade := "F" }

/-- C3 counterexample: the battery run on any byte sequence returns 31
`TestResult`s, not the claimed 30. -/
theorem C3_counterexample :
    (run_all_tests implF []).length = 31 ∧ ¬ ((run_all_tests implF []).length = 30) := by
  have h : (run_all_tests implF []).length = 31 := by
    simp [run_all_tests, ALL_TESTS]
  exact ⟨h, by omega⟩

/-- Every grade maps to at most 100 points. -/
theorem grade_scores_le (g : String) : grade_scores g ≤ 100 := by
  unfold grade_scores
  split
  · omega
  · split
    · omega
    · split
      · omega
      · split <;> omega

/-- The quality score of any result list lies in [0, 100]. -/
theorem calculate_quality_score_bounds (results : List TestResult) :
    0 ≤ calculate_quality_score results ∧ calculate_quality_score results ≤ 100 := by
  rcases results with _ | ⟨r, l⟩
  · simp [calculate_quality_score]
  · rw [calculate_quality_score_eq _ (List.cons_ne_nil r l)]
    set results := r :: l with hres
    have hlen : (0 : ℝ) < results.length := Nat.cast_pos.mpr (Nat.succ_pos l.length)
    have hnn : 0 ≤ (results.map fun x => (grade_scores x.grade : ℝ)).sum := by
      apply List.sum_nonneg
      intro x hx
      rcases List.mem_map.mp hx with ⟨y, _, rfl⟩
      exact Nat.cast_nonneg _
    constructor
    · exact div_nonneg hnn hlen.le
    · rw [div_le_iff₀ hlen]
      have hsum : (results.map fun r => (grade_scores r.grade : ℝ)).sum ≤
          100 * results.length := by
        calc (results.map fun r => (grade_scores r.grade : ℝ)).sum
            ≤ (results.map fun _ => (100 : ℝ)).sum :=
              List.sum_le_sum fun r _ => by
                exact_mod_cast Nat.cast_le.mpr (grade_scores_le r.grade)
          _ = 100 * results.length := by
              simp [List.map_const, List.sum_replicate, nsmul_eq_mul, mul_comm]
      linarith

/-- C3 (amended): on any byte sequence the battery runs exactly **31**
statistical tests, returning their `TestResult`s in registration order
(result `i` is test `i` of `ALL_TESTS`, run through the `try/except`
wrapper), and the overall quality score is the average over all results of
the grade mapping A=100, B=75, C=50, D=25, F=0 (any other grade string also
counts 0, matching `dict.get(grade, 0)`) — hence it lies in [0, 100]. -/
theorem C3_battery (impl : String → List Nat → Except String TestResult)
    (data : List Nat) :
    (run_all_tests impl data).length = 31 ∧
    (∀ i : Nat, (run_all_tests impl data)[i]? = (ALL_TESTS[i]?).map (runOne impl data)) ∧
    calculate_quality_score (run_all_tests impl data) =
      ((run_all_tests impl data).map fun r => (grade_scores r.grade : ℝ)).sum /
        (run_all_tests impl data).length ∧
    0 ≤ calculate_quality_score (run_all_tests impl data) ∧
    calculate_quality_score (run_all_tests impl data) ≤ 100 := by
  refine ⟨by simp [run_all_tests, ALL_TESTS], fun i => by simp [run_all_tests], ?_, ?_, ?_⟩
  · exact calculate_quality_score_eq _ (by simp [run_all_tests, ALL_TESTS])
  · exact (calculate_quality_score_bounds _).1
  · exact (calculate_quality_score_bounds _).2

/-! ## Entropy estimators (`stats.py`)

`shannon_entropy` and `min_entropy` work on `uint8` data, so samples are
`List (Fin 256)` here; float arithmetic and `np.log2` are idealised over
`ℝ`.  `Counter(data)` enumerates exactly the observed byte values — the
Finset `data.toFinset` — with their multiplicities `data.count v`. -/

/-- The literal `1e-15` added inside `log2` by `stats.py` and
`sources/base.py` ("avoid undefined behaviour at zero"). -/
noncomputable def eps : ℝ := 1 / 10 ^ 15

theorem eps_pos : 0 < eps := by norm_num [eps]

/-- The empirical probability `counts / len(data)` of byte value `v`. -/
noncomputable def prob (data : List (Fin 256)) (v : Fin 256) : ℝ :=
  (data.count v : ℝ) / data.length

/-- `stats.shannon_entropy(data)` (lines 12–17):
`-sum(probs * log2(probs + 1e-15))` over the observed byte values. -/
noncomputable def shannon_entropy (data : List (Fin 256)) : ℝ :=
  -∑ v ∈ data.toFinset, prob data v * Real.logb 2 (prob data v + eps)

/-- `max(Counter(data).values())`: the largest multiplicity. -/
def maxCount (data : List (Fin 256)) : ℕ := data.toFinset.sup fun v => data.count v

/-- `stats.min_entropy(data)` (lines 20–24): `-log2(p_max + 1e-15)` with
`p_max = max(Counter(data).values()) / len(data)`. -/
noncomputable def min_entropy (data : List (Fin 256)) : ℝ :=
  -Real.logb 2 ((maxCount data : ℝ) / data.length + eps)

/-! ### Elementary facts about the empirical distribution -/

theorem length_cast_pos (data : List (Fin 256)) (h : data ≠ []) :
    (0 : ℝ) < data.length := by
  have : 0 < data.length := List.length_pos.mpr h
  exact_mod_cast this

theorem prob_nonneg (data : List (Fin 256)) (v : Fin 256) : 0 ≤ prob data v := by
  unfold prob
  positivity

theorem prob_pos (data : List (Fin 256)) (v : Fin 256) (hv : v ∈ data.toFinset) :
    0 < prob data v := by
  have hmem : v ∈ data := List.mem_toFinset.mp hv
  have hc : 0 < data.count v := List.count_pos_iff.mpr hmem
  have hn : (0 : ℝ) < data.length :=
    length_cast_pos data (List.ne_nil_of_mem hmem)
  exact div_pos (by exact_mod_cast hc) hn

theorem sum_prob (data : List (Fin 256)) (h : data ≠ []) :
    ∑ v ∈ data.toFinset, prob data v = 1 := by
  unfold prob
  rw [← Finset.sum_div, ← Nat.cast_sum, List.sum_toFinset_count_eq_length]
  exact div_self (length_cast_pos data h).ne'

theorem prob_le_pmax (data : List (Fin 256)) (v : Fin 256) (hv : v ∈ data.toFinset) :
    prob data v ≤ (maxCount data : ℝ) / data.length := by
  have hn : (0 : ℝ) < data.length :=
    length_cast_pos data (List.ne_nil_of_mem (List.mem_toFinset.mp hv))
  have hc : data.count v ≤ maxCount data := by
    have := Finset.le_sup (α := ℕ) (f := fun w => data.count w) hv
    exact this
  exact (div_le_div_iff_of_pos_right hn).mpr (by exact_mod_cast hc)

theorem pmax_le_one (data : List (Fin 256)) (h : data ≠ []) :
    (maxCount data : ℝ) / data.length ≤ 1 := by
  rw [div_le_one (length_cast_pos data h)]
  have : maxCount data ≤ data.length :=
    Finset.sup_le fun v _ => List.count_le_length v data
  exact_mod_cast this

/-! ### Bounds on the entropy estimators (claim C8)

The `+ 1e-15` inside the `log2` makes both estimators *negative* on
constant data: for a single observed value `p = 1` and
`-log2(1 + 1e-15) < 0`.  The true bounds are
`-log2(1+ε) ≤ min_entropy ≤ shannon_entropy ≤ 8`. -/

theorem pmax_eps_pos (data : List (Fin 256)) :
    0 < (maxCount data : ℝ) / data.length + eps := by
  have h1 : (0 : ℝ) ≤ (maxCount data : ℝ) / data.length := by positivity
  linarith [eps_pos]

theorem neg_logb_le_min_entropy (data : List (Fin 256)) (h : data ≠ []) :
    -Real.logb 2 (1 + eps) ≤ min_entropy data := by
  unfold min_entropy
  have hpm1 := pmax_le_one data h
  have hmono : Real.logb 2 ((maxCount data : ℝ) / data.length + eps) ≤
      Real.logb 2 (1 + eps) :=
    Real.logb_le_logb_of_le one_lt_two (pmax_eps_pos data) (by linarith)
  linarith

theorem min_entropy_le_shannon (data : List (Fin 256)) (h : data ≠ []) :
    min_entropy data ≤ shannon_entropy data := by
  have key : ∑ v ∈ data.toFinset, prob data v * Real.logb 2 (prob data v + eps) ≤
      ∑ v ∈ data.toFinset, prob data v *
        Real.logb 2 ((maxCount data : ℝ) / data.length + eps) := by
    apply Finset.sum_le_sum
    intro v hv
    apply mul_le_mul_of_nonneg_left ?_ (prob_nonneg data v)
    apply Real.logb_le_logb_of_le one_lt_two
    · linarith [prob_nonneg data v, eps_pos]
    · linarith [prob_le_pmax data v hv]
  have hsum : ∑ v ∈ data.toFinset, prob data v *
      Real.logb 2 ((maxCount data : ℝ) / data.length + eps) =
      Real.logb 2 ((maxCount data : ℝ) / data.length + eps) := by
    rw [← Finset.sum_mul, sum_prob data h, one_mul]
  unfold shannon_entropy min_entropy
  linarith [key, hsum.le, hsum.ge]

theorem shannon_le_eight (data : List (Fin 256)) (h : data ≠ []) :
    shannon_entropy data ≤ 8 := by
  have hlog2 : (0 : ℝ) < Real.log 2 := Real.log_pos one_lt_two
  -- dropping the ε inside the log only lowers each summand
  have step1 : ∑ v ∈ data.toFinset, prob data v * Real.logb 2 (prob data v) ≤
      ∑ v ∈ data.toFinset, prob data v * Real.logb 2 (prob data v + eps) :=
    Finset.sum_le_sum fun v hv =>
      mul_le_mul_of_nonneg_left
        (Real.logb_le_logb_of_le one_lt_two (prob_pos data v hv) (by linarith [eps_pos]))
        (prob_nonneg data v)
  -- per-value Gibbs-style bound via log x ≥ 1 − 1/x
  have key : ∀ v ∈ data.toFinset,
      prob data v - 1 / 256 ≤
        prob data v * Real.log 256 + prob data v * Real.log (prob data v) := by
    intro v hv
    have hp := prob_pos data v hv
    have h1 : Real.log ((256 * prob data v)⁻¹) ≤ (256 * prob data v)⁻¹ - 1 :=
      Real.log_le_sub_one_of_pos (by positivity)
    rw [Real.log_inv] at h1
    have h2 : Real.log (256 * prob data v) = Real.log 256 + Real.log (prob data v) :=
      Real.log_mul (by norm_num) hp.ne'
    have h3 : prob data v * (1 - (256 * prob data v)⁻¹) ≤
        prob data v * (Real.log 256 + Real.log (prob data v)) := by
      apply mul_le_mul_of_nonneg_left ?_ (prob_nonneg data v)
      rw [← h2]
      linarith
    have h4 : prob data v * (1 - (256 * prob data v)⁻¹) = prob data v - 1 / 256 := by
      field_simp
      ring
    nlinarith [h3, h4]
  have hsumkey : (1 : ℝ) - (data.toFinset.card : ℝ) / 256 ≤
      Real.log 256 + ∑ v ∈ data.toFinset, prob data v * Real.log (prob data v) := by
    have hs := Finset.sum_le_sum key
    rw [Finset.sum_sub_distrib, sum_prob data h, Finset.sum_const, Finset.sum_add_distrib,
      ← Finset.sum_mul, sum_prob data h, one_mul] at hs
    simpa [nsmul_eq_mul, div_eq_mul_inv] using hs
  have hk : (data.toFinset.card : ℝ) ≤ 256 := by
    have hcard : data.toFinset.card ≤ 256 := by
      have := Finset.card_le_univ data.toFinset
      simpa using this
    exact_mod_cast hcard
  have hlogsum : -Real.log 256 ≤
      ∑ v ∈ data.toFinset, prob data v * Real.log (prob data v) := by
    have h0 : (0 : ℝ) ≤ 1 - (data.toFinset.card : ℝ) / 256 := by linarith
    linarith
  have hconv : ∑ v ∈ data.toFinset, prob data v * Real.logb 2 (prob data v) =
      (∑ v ∈ data.toFinset, prob data v * Real.log (prob data v)) / Real.log 2 := by
    rw [Finset.sum_div]
    refine Finset.sum_congr rfl fun v _ => ?_
    rw [Real.logb]
    ring
  have h256 : Real.log 256 = 8 * Real.log 2 := by
    rw [show (256 : ℝ) = 2 ^ (8 : ℕ) by norm_num, Real.log_pow]
    push_cast
    ring
  have hge : -8 ≤ ∑ v ∈ data.toFinset, prob data v * Real.logb 2 (prob data v) := by
    rw [hconv, le_div_iff₀ hlog2]
    calc (-8 : ℝ) * Real.log 2 = -Real.log 256 := by rw [h256]; ring
      _ ≤ _ := hlogsum
  unfold shannon_entropy
  linarith [step1, hge]

/-! ## Claim C8 — estimator bounds

As stated (`0 ≤ shannon`, `0 ≤ min_entropy`) the claim is false: the
`+ 1e-15` guard inside `log2` drives both estimators slightly below zero on
low-diversity data (most visibly on constant data, where `p_max = 1`). -/

/-- C8 counterexample: on the constant one-byte sample `[0]` the Shannon
estimator equals `-log2(1 + 1e-15) < 0`, refuting `0 ≤ shannon_entropy`. -/
theorem C8_counterexample : ¬ (0 ≤ shannon_entropy [(0 : Fin 256)]) := by
  have hval : shannon_entropy [(0 : Fin 256)] = -(1 * Real.logb 2 (1 + eps)) := by
    unfold shannon_entropy prob
    norm_num
  have hpos : 0 < Real.logb 2 (1 + eps) :=
    Real.logb_pos one_lt_two (by norm_num [eps])
  rw [hval]
  intro hcontra
  linarith

/-- C8 (amended): for every non-empty byte sample,
`-log2(1 + 1e-15) ≤ min_entropy ≤ shannon_entropy ≤ 8` — the claimed lower
bound 0 must be weakened by the `1e-15` guard inside the logarithm (by
about 1.44·10⁻¹⁵), while the ordering and the upper bound 8 hold. -/
theorem C8_entropy_bounds (data : List (Fin 256)) (h : data ≠ []) :
    -Real.logb 2 (1 + eps) ≤ min_entropy data ∧
    min_entropy data ≤ shannon_entropy data ∧
    shannon_entropy data ≤ 8 :=
  ⟨neg_logb_le_min_entropy data h, min_entropy_le_shannon data h,
   shannon_le_eight data h⟩

/-- C8 witness: the amended bounds at the concrete sample `[0]`. -/
theorem C8_witness :
    ([(0 : Fin 256)] ≠ []) ∧
    (-Real.logb 2 (1 + eps) ≤ min_entropy [(0 : Fin 256)] ∧
     min_entropy [(0 : Fin 256)] ≤ shannon_entropy [(0 : Fin 256)] ∧
     shannon_entropy [(0 : Fin 256)] ≤ 8) :=
  ⟨by simp, C8_entropy_bounds [(0 : Fin 256)] (by simp)⟩

/-! ## Per-source quality estimator (`sources/base.py`)

`_quick_shannon` computes the same `-Σ p·log2(p + 1e-15)` as
`stats.shannon_entropy` (via `np.unique(..., return_counts=True)`, which
enumerates the observed values exactly as `Counter` does), but returns 0.0
on empty input.  `_quick_quality` additionally uses
`zlib.compress(raw, 9)` — an external C library, entering the model as the
parameter `cl` giving the compressed length — and Python's `round`. -/

/-- `EntropySource._quick_shannon(data)` (`sources/base.py` lines 53–60). -/
noncomputable def quickShannon (data : List (Fin 256)) : ℝ :=
  if data.length = 0 then 0
  else -∑ v ∈ data.toFinset, prob data v * Real.logb 2 (prob data v + eps)

/-- Round half to even, the tie-breaking of Python's `round`. -/
noncomputable def roundHalfEven (x : ℝ) : ℤ :=
  if Int.fract x = 1 / 2 then (if Even ⌊x⌋ then ⌊x⌋ else ⌊x⌋ + 1) else round x

/-- Python `round(x, d)`, idealised over `ℝ`: round `x·10^d` half-to-even,
divide back. -/
noncomputable def pyRound (d : ℕ) (x : ℝ) : ℝ := (roundHalfEven (x * 10 ^ d) : ℝ) / 10 ^ d

/-- The report dict of `_quick_quality` in the `|data| ≥ 16` case. -/
structure QualityReport where
  label : String
  samples : ℕ
  unique_values : ℕ
  shannon_entropy : ℝ
  compression_ratio : ℝ
  quality_score : ℝ
  grade : String

/-- The two shapes `_quick_quality` returns: the short-circuit dict
`{"grade": "F", "error": "insufficient data", "samples": n}` or a full
report. -/
inductive QuickQualityResult where
  | insufficient (grade : String) (error : String) (samples : ℕ)
  | report (r : QualityReport)

/-- The `shannon_entropy` entry of a quality result (0 when absent). -/
noncomputable def QuickQualityResult.shannonField : QuickQualityResult → ℝ
  | .insufficient _ _ _ => 0
  | .report r => r.shannon_entropy

/-- The grade ladder `"A" if score >= 80 else "B" if score >= 60 else …`
(`sources/base.py` lines 77–82). -/
noncomputable def gradeOf (score : ℝ) : String :=
  if 80 ≤ score then "A" else if 60 ≤ score then "B" else if 40 ≤ score then "C"
  else if 20 ≤ score then "D" else "F"

/-- The score line of `_quick_quality`:
`eff * 60 + min(comp_ratio, 1.0) * 20 + min(n_unique / 256, 1.0) * 20`
with `eff = shannon / 8.0`. -/
noncomputable def quickScore (shannon ratio : ℝ) (nUnique : ℕ) : ℝ :=
  shannon / 8 * 60 + min ratio 1 * 20 + min ((nUnique : ℝ) / 256) 1 * 20

/-- `EntropySource._quick_quality(data, label)` (`sources/base.py` lines
62–91); `cl data` is `len(zlib.compress(raw, 9))`. -/
noncomputable def quickQuality (cl : List (Fin 256) → ℕ) (data : List (Fin 256))
    (label : String) : QuickQualityResult :=
  if data.length < 16 then .insufficient "F" "insufficient data" data.length
  else
    let shannon := quickShannon data
    let comp_ratio : ℝ := (cl data : ℝ) / (max data.length 1 : ℕ)
    let n_unique := data.toFinset.card
    let score := quickScore shannon comp_ratio n_unique
    .report { label := label, samples := data.length, unique_values := n_unique,
              shannon_entropy := pyRound 4 shannon,
              compression_ratio := pyRound 4 comp_ratio,
              quality_score := pyRound 1 score,
              grade := gradeOf score }

/-- Claim C7's reading of the quality report, written from the spec's words:
score `60·(H/8) + 20·min(ratio, 1) + 20·min(unique/256, 1)` rounded to one
decimal; grade A ≥ 80 / B ≥ 60 / C ≥ 40 / D ≥ 20 / else F; grade F with the
"insufficient" reason below 16 bytes. -/
noncomputable def quickQualitySpec (cl : List (Fin 256) → ℕ) (data : List (Fin 256))
    (label : String) : QuickQualityResult :=
  if data.length < 16 then .insufficient "F" "insufficient data" data.length
  else
    let shannon := quickShannon data
    let ratio : ℝ := (cl data : ℝ) / (max data.length 1 : ℕ)
    let score := 60 * (shannon / 8) + 20 * min ratio 1 +
      20 * min ((data.toFinset.card : ℝ) / 256) 1
    .report { label := label, samples := data.length, unique_values := data.toFinset.card,
              shannon_entropy := pyRound 4 shannon,
              compression_ratio := pyRound 4 ratio,
              quality_score := pyRound 1 score,
              grade := gradeOf score }

/-! ## Claim C7 — the quality-report formula -/

/-- C7: for every byte sample (and any compressed length returned by zlib),
`_quick_quality` behaves exactly as the claim states: below 16 bytes it
returns grade F with the "insufficient data" reason, otherwise the report's
quality score is `60·(H/8) + 20·min(ratio,1) + 20·min(unique/256,1)`
rounded to one decimal and the grade follows the A ≥ 80 / B ≥ 60 / C ≥ 40 /
D ≥ 20 / F ladder on that score. -/
theorem C7_quick_quality (cl : List (Fin 256) → ℕ) (data : List (Fin 256))
    (label : String) : quickQuality cl data label = quickQualitySpec cl data label := by
  simp only [quickQuality, quickQualitySpec, quickScore]
  split
  · rfl
  · have hsc : quickShannon data / 8 * 60 +
        min ((cl data : ℝ) / (max data.length 1 : ℕ)) 1 * 20 +
        min ((data.toFinset.card : ℝ) / 256) 1 * 20 =
        60 * (quickShannon data / 8) +
        20 * min ((cl data : ℝ) / (max data.length 1 : ℕ)) 1 +
        20 * min ((data.toFinset.card : ℝ) / 256) 1 := by ring
    rw [hsc]

/-! ## Claim C9 — the round-trip law for the Shannon field

The claim `_quick_shannon(b) == _quick_quality(b).shannon_entropy` fails:
the report stores `round(shannon, 4)` (`base.py` line 87), and the Shannon
estimate is virtually never a 4-decimal number.  On 8 zero bytes ++ 8 one
bytes the estimate is `-log2(1/2 + 1e-15) = 1 - log2(1 + 2·1e-15)`, a value
strictly between `1 - 10⁻⁵` and `1`, which `round(·, 4)` sends to exactly
`1.0 ≠ _quick_shannon(b)`. -/

/-- 16 bytes: eight `0x00` followed by eight `0x01`. -/
def data9 : List (Fin 256) := List.replicate 8 0 ++ List.replicate 8 1

/-- On `data9` the quick Shannon estimate is `-log2(1/2 + 1e-15)`. -/
theorem quickShannon_data9 : quickShannon data9 = -Real.logb 2 (1 / 2 + eps) := by
  have htf : data9.toFinset = {0, 1} := by decide
  have hc0 : data9.count 0 = 8 := by decide
  have hc1 : data9.count 1 = 8 := by decide
  have hlen : data9.length = 16 := by decide
  unfold quickShannon
  rw [if_neg (by rw [hlen]; norm_num)]
  rw [htf, Finset.sum_pair (by decide : (0 : Fin 256) ≠ 1)]
  unfold prob
  rw [hc0, hc1, hlen]
  norm_num
  ring

/-- `1 - 1/20000 ≤ quickShannon data9 < 1`. -/
theorem quickShannon_data9_bounds :
    1 - 1 / 20000 ≤ quickShannon data9 ∧ quickShannon data9 < 1 := by
  rw [quickShannon_data9]
  have heq : (1 / 2 + eps : ℝ) = (1 + 2 * eps) / 2 := by rw [eps]; ring
  have hlogdiv : Real.logb 2 ((1 + 2 * eps) / 2) =
      Real.logb 2 (1 + 2 * eps) - 1 := by
    rw [Real.logb_div (by norm_num [eps]) (by norm_num), Real.logb_self_eq_one]
    all_goals norm_num
  set d := Real.logb 2 (1 + 2 * eps) with hd
  have hdpos : 0 < d := Real.logb_pos one_lt_two (by norm_num [eps])
  have hlog1p : Real.log (1 + 2 * eps) ≤ 2 * eps := by
    have := Real.log_le_sub_one_of_pos (show (0 : ℝ) < 1 + 2 * eps by norm_num [eps])
    linarith
  have hl2 : (0.6931471803 : ℝ) < Real.log 2 := Real.log_two_gt_d9
  have hdl2 : d * Real.log 2 = Real.log (1 + 2 * eps) := by
    rw [hd, Real.logb]
    field_simp
  have hdsmall : d ≤ 1 / 20000 := by
    have heps2 : (2 : ℝ) * eps ≤ 1 / 100000000000000 := by norm_num [eps]
    have h1 : d * Real.log 2 ≤ 1 / 100000000000000 := by linarith
    by_contra hgt
    push_neg at hgt
    have h2 : (1 / 20000 : ℝ) * 0.6931471803 < d * Real.log 2 :=
      mul_lt_mul'' hgt hl2 (by norm_num) (by norm_num)
    norm_num at h2
    linarith
  constructor
  · rw [heq, hlogdiv]
    linarith
  · rw [heq, hlogdiv]
    linarith

/-- C9 counterexample: on `data9` (16 bytes, so the report branch runs) the
`shannon_entropy` field of `_quick_quality` differs from `_quick_shannon` —
the field is rounded to 4 decimals (to exactly 1.0 here), the estimate is
strictly below 1. -/
theorem C9_counterexample :
    ¬ ((quickQuality (fun _ => 0) data9 "").shannonField = quickShannon data9) := by
  have hfield : (quickQuality (fun _ => 0) data9 "").shannonField =
      pyRound 4 (quickShannon data9) := by
    unfold quickQuality
    rw [if_neg (by have : data9.length = 16 := by decide
                   rw [this]; norm_num)]
    rfl
  obtain ⟨hlo, hhi⟩ := quickShannon_data9_bounds
  set H := quickShannon data9 with hH
  have hx_lo : (9999.5 : ℝ) ≤ H * 10 ^ 4 := by norm_num; nlinarith
  have hx_hi : H * 10 ^ 4 < 10000 := by norm_num; nlinarith
  have hfloor : ⌊H * 10 ^ 4⌋ = 9999 := by
    apply Int.floor_eq_iff.mpr
    constructor <;> push_cast <;> linarith
  have hrhe : roundHalfEven (H * 10 ^ 4) = 10000 := by
    unfold roundHalfEven
    split
    · rw [hfloor]
      norm_num
      decide
    · rw [round_eq]
      apply Int.floor_eq_iff.mpr
      constructor <;> push_cast <;> linarith
  have hround : pyRound 4 H = 1 := by
    rw [pyRound, hrhe]
    norm_num
  rw [hfield, hround]
  intro hcontra
  exact ne_of_lt hhi hcontra.symm

/-- C9 (amended): for samples of at least 16 bytes, the report's
`shannon_entropy` field equals `round(_quick_shannon(b), 4)` — the
round-trip law holds only up to that 4-decimal rounding. -/
theorem C9_shannon_field (cl : List (Fin 256) → ℕ) (data : List (Fin 256))
    (label : String) (h : 16 ≤ data.length) :
    (quickQuality cl data label).shannonField = pyRound 4 (quickShannon data) := by
  unfold quickQuality
  rw [if_neg (by omega)]
  rfl

/-- C9 witness: the amended law at 16 zero bytes. -/
theorem C9_witness :
    16 ≤ (List.replicate 16 (0 : Fin 256)).length ∧
    (quickQuality (fun _ => 0) (List.replicate 16 (0 : Fin 256)) "").shannonField =
      pyRound 4 (quickShannon (List.replicate 16 (0 : Fin 256))) :=
  ⟨by simp, C9_shannon_field (fun _ => 0) (List.replicate 16 (0 : Fin 256)) "" (by simp)⟩

end OpenEntropy
